import Mathlib

/-!
Shallow embedding of the two Notion-backed static-blog pages
(the list view `index` page and the single-post view page).

External API calls (`notion.databases.query`, `notion.blocks.children.list`)
are modelled as inputs: the query result list and the block-children list are
parameters of the embedded functions.  JavaScript runtime exceptions
(reading a field of `undefined`) are modelled with `Except String`.
-/

set_option autoImplicit false

namespace Blog

/-- A rich-text segment, reduced to its `plain_text` field (the only field the
program reads). A rich-text array is a `List String`. -/
abbrev RichText := List String

/-- Payload of a `paragraph` / `heading_2` / `heading_3` / `quote` block:
the program reads only `rich_text`. -/
structure TextPayload where
  rich_text : RichText
  deriving Repr, DecidableEq

/-- Payload of a `code` block: the program reads `rich_text` and `language`. -/
structure CodePayload where
  rich_text : RichText
  language : String
  deriving Repr, DecidableEq

/-- A block returned by the block-children query, as a JavaScript object:
a `type` tag that may be absent (`PartialBlockObjectResponse` has none, hence
the `"type" in block` guard in the source), and the five payload fields the
program may read.  A field is `none` when absent from the object; reading a
subfield of an absent field throws at runtime. -/
structure Block where
  type : Option String := none
  paragraph : Option TextPayload := none
  heading_2 : Option TextPayload := none
  heading_3 : Option TextPayload := none
  quote : Option TextPayload := none
  code : Option CodePayload := none
  deriving Repr, DecidableEq

/-- A page property value: the program distinguishes `title` and `rich_text`
typed properties by their `type` tag; anything else is `other`. -/
inductive Property where
  | title (rich_text : RichText)
  | rich_text (rich_text : RichText)
  | other
  deriving Repr, DecidableEq

/-- The `properties` bag of a page: a string-keyed map. -/
abbrev PropBag := List (String × Property)

/-- A page returned by the database query: id, timestamps, and a `properties`
bag that partial responses lack (hence the `"properties" in page` guards). -/
structure Page where
  id : String
  created_time : Option String := none
  last_edited_time : Option String := none
  properties : Option PropBag := none
  deriving Repr, DecidableEq

/-- The `Content` tagged union (identical in both source files). -/
inductive Content where
  | paragraph (text : Option String)
  | heading_2 (text : Option String)
  | heading_3 (text : Option String)
  | quote (text : Option String)
  | code (text : Option String) (language : String)
  deriving Repr, DecidableEq

/-- The `Post` record (identical in both source files). -/
structure Post where
  id : String
  title : Option String
  slug : Option String
  createdTs : Option String
  lastEditedTs : Option String
  contents : List Content
  deriving Repr, DecidableEq

/-- Models `rich_text[0]?.plain_text ?? null`. -/
def firstText (l : RichText) : Option String :=
  l.head?

end Blog

namespace ListView

open Blog

/-- Embeds `getTitle` from the list view: `page.properties["Name"]?.type === "title"`
then `title[0]?.plain_text ?? null`, else `null`.  Takes the `properties` bag
(every call site has already established the page carries one). -/
def getTitle (properties : PropBag) : Option String :=
  match properties.lookup "Name" with
  | some (Property.title l) => firstText l
  | _ => none

/-- Embeds `getSlug` from the list view: like `getTitle` but for the `Slug` property
of type `rich_text`. -/
def getSlug (properties : PropBag) : Option String :=
  match properties.lookup "Slug" with
  | some (Property.rich_text l) => firstText l
  | _ => none

/-- One iteration of the `switch` inside the list view's `getPostContents`.
The `heading_2` and `quote` cases have no `break`, so control falls through:
a `heading_2` block also executes the `quote` and `code` pushes, and a
`quote` block also executes the `code` push.  There is no `heading_3` case.
Reading a subfield of an absent payload field throws (`Except.error`),
discarding the partially built list exactly as the real exception discards
the function's result. -/
def flattenBlock (b : Block) : Except String (List Content) :=
  match b.type with
  | none => Except.ok []
  | some t =>
    if t = "paragraph" then
      match b.paragraph with
      | some p => Except.ok [Content.paragraph (firstText p.rich_text)]
      | none => Except.error "TypeError: paragraph is undefined"
    else if t = "heading_2" then
      match b.heading_2 with
      | none => Except.error "TypeError: heading_2 is undefined"
      | some h =>
        match b.quote with
        | none => Except.error "TypeError: quote is undefined"
        | some q =>
          match b.code with
          | none => Except.error "TypeError: code is undefined"
          | some c =>
            Except.ok [Content.heading_2 (firstText h.rich_text),
              Content.quote (firstText q.rich_text),
              Content.code (firstText c.rich_text) c.language]
    else if t = "quote" then
      match b.quote with
      | none => Except.error "TypeError: quote is undefined"
      | some q =>
        match b.code with
        | none => Except.error "TypeError: code is undefined"
        | some c =>
          Except.ok [Content.quote (firstText q.rich_text),
            Content.code (firstText c.rich_text) c.language]
    else if t = "code" then
      match b.code with
      | none => Except.error "TypeError: code is undefined"
      | some c => Except.ok [Content.code (firstText c.rich_text) c.language]
    else
      Except.ok []

/-- The `forEach` loop of the list view's `getPostContents`, over the
block-children list (the HTTP fetch is the caller's input). -/
def getPostContents : List Block → Except String (List Content)
  | [] => Except.ok []
  | b :: bs =>
    match flattenBlock b with
    | Except.error e => Except.error e
    | Except.ok c =>
      match getPostContents bs with
      | Except.error e => Except.error e
      | Except.ok rest => Except.ok (c ++ rest)

/-- Embeds `getPosts` from the list view, over the database query result:
keeps pages carrying a `properties` bag and builds a `Post` with extracted
title/slug, the page timestamps and empty `contents`. -/
def getPosts (results : List Page) : List Post :=
  results.filterMap fun page =>
    match page.properties with
    | some props =>
      some { id := page.id, title := getTitle props, slug := getSlug props,
             createdTs := page.created_time, lastEditedTs := page.last_edited_time,
             contents := [] }
    | none => none

/-- Embeds `Promise.all(posts.map((post) => getPostContents(post)))`: the block
children of each post are fetched by id (`blocksOf` is the API oracle), in
list order; a rejection of any element rejects the whole. -/
def contentsListOf (blocksOf : String → List Block) :
    List Post → Except String (List (List Content))
  | [] => Except.ok []
  | p :: ps =>
    match getPostContents (blocksOf p.id) with
    | Except.error e => Except.error e
    | Except.ok cl =>
      match contentsListOf blocksOf ps with
      | Except.error e => Except.error e
      | Except.ok rest => Except.ok (cl :: rest)

/-- Embeds `posts.forEach((post, index) => post.contents = contentsList[index])`. -/
def updateContents (posts : List Post) (contentsList : List (List Content)) :
    List Post :=
  posts.zipWith (fun post cl => { post with contents := cl }) contentsList

/-- The list view's `getStaticProps` core: build posts from the query result,
fan out the content fetches, and write each content list back into the post
at the same index. -/
def getStaticProps (blocksOf : String → List Block) (results : List Page) :
    Except String (List Post) :=
  match contentsListOf blocksOf (getPosts results) with
  | Except.error e => Except.error e
  | Except.ok contentsList => Except.ok (updateContents (getPosts results) contentsList)

end ListView

namespace PostView

open Blog

/-- One iteration of the `switch` inside the single-post view's
`getStaticProps`: all five recognized cases, each terminated by `break`
(the final `code` case needs none), each reading only its own payload field. -/
def flattenBlock (b : Block) : Except String (List Content) :=
  match b.type with
  | none => Except.ok []
  | some t =>
    if t = "paragraph" then
      match b.paragraph with
      | some p => Except.ok [Content.paragraph (firstText p.rich_text)]
      | none => Except.error "TypeError: paragraph is undefined"
    else if t = "heading_2" then
      match b.heading_2 with
      | some h => Except.ok [Content.heading_2 (firstText h.rich_text)]
      | none => Except.error "TypeError: heading_2 is undefined"
    else if t = "heading_3" then
      match b.heading_3 with
      | some h => Except.ok [Content.heading_3 (firstText h.rich_text)]
      | none => Except.error "TypeError: heading_3 is undefined"
    else if t = "quote" then
      match b.quote with
      | some q => Except.ok [Content.quote (firstText q.rich_text)]
      | none => Except.error "TypeError: quote is undefined"
    else if t = "code" then
      match b.code with
      | some c => Except.ok [Content.code (firstText c.rich_text) c.language]
      | none => Except.error "TypeError: code is undefined"
    else
      Except.ok []

/-- The `forEach` loop over `blocks.results` in the single-post view. -/
def getContents : List Block → Except String (List Content)
  | [] => Except.ok []
  | b :: bs =>
    match flattenBlock b with
    | Except.error e => Except.error e
    | Except.ok c =>
      match getContents bs with
      | Except.error e => Except.error e
      | Except.ok rest => Except.ok (c ++ rest)

/-- The inline `Name` title extraction of the single-post view (a textual
copy of the list view's `getTitle`, inlined in its `getStaticProps`). -/
def titleOf (props : PropBag) : Option String :=
  match props.lookup "Name" with
  | some (Property.title l) => firstText l
  | _ => none

/-- The inline `Slug` extraction of the single-post view (a textual copy of
the list view's `getSlug`, inlined in its `getStaticProps`). -/
def slugOf (props : PropBag) : Option String :=
  match props.lookup "Slug" with
  | some (Property.rich_text l) => firstText l
  | _ => none

/-- The single-post view's `getStaticProps` core, over the database query
result and the block-children list: empty result gives `post = null`; a first
result without a `properties` bag gives an all-null post with no contents;
otherwise title/slug are extracted inline and the blocks are flattened. -/
def getStaticProps (results : List Page) (blocks : List Block) :
    Except String (Option Post) :=
  match results with
  | [] => Except.ok none
  | page :: _ =>
    match page.properties with
    | none =>
      Except.ok (some { id := page.id, title := none, slug := none,
                        createdTs := none, lastEditedTs := none, contents := [] })
    | some props =>
      match getContents blocks with
      | Except.error e => Except.error e
      | Except.ok contents =>
        Except.ok (some { id := page.id, title := titleOf props,
                          slug := slugOf props,
                          createdTs := page.created_time,
                          lastEditedTs := page.last_edited_time,
                          contents := contents })

end PostView

namespace Blog

/-- Spec-side: the five block types the spec calls recognized
(paragraph, heading_2, heading_3, quote, code). -/
def isRecognized (b : Block) : Bool :=
  match b.type with
  | some t =>
    t = "paragraph" || t = "heading_2" || t = "heading_3" || t = "quote" || t = "code"
  | none => false

/-- Spec-side mapping, following the spec's words: each recognized block maps
to exactly one `Content` record with the same type tag, built from the first
rich-text run of that block's own payload; unrecognized blocks map to
nothing.  Used to compare the flatteners against the spec. -/
def contentSpec (b : Block) : Option Content :=
  match b.type with
  | some t =>
    if t = "paragraph" then
      b.paragraph.map fun p => Content.paragraph (firstText p.rich_text)
    else if t = "heading_2" then
      b.heading_2.map fun p => Content.heading_2 (firstText p.rich_text)
    else if t = "heading_3" then
      b.heading_3.map fun p => Content.heading_3 (firstText p.rich_text)
    else if t = "quote" then
      b.quote.map fun p => Content.quote (firstText p.rich_text)
    else if t = "code" then
      b.code.map fun c => Content.code (firstText c.rich_text) c.language
    else none
  | none => none

/-- A block carries the payload field matching its own type tag (the shape
the external API actually returns). -/
def blockOk (b : Block) : Bool :=
  match b.type with
  | some t =>
    if t = "paragraph" then b.paragraph.isSome
    else if t = "heading_2" then b.heading_2.isSome
    else if t = "heading_3" then b.heading_3.isSome
    else if t = "quote" then b.quote.isSome
    else if t = "code" then b.code.isSome
    else true
  | none => true

/-- Every block of the list carries the payload matching its tag. -/
def blocksOk (bs : List Block) : Bool :=
  bs.all blockOk

/-- Fixture: a paragraph block as the API returns it. -/
def paraBlock (l : RichText) : Block :=
  { type := some "paragraph", paragraph := some ⟨l⟩ }

/-- Fixture: a heading_2 block as the API returns it (no quote/code fields). -/
def h2Block (l : RichText) : Block :=
  { type := some "heading_2", heading_2 := some ⟨l⟩ }

/-- Fixture: a heading_2 block that additionally carries quote and code
payloads, so the list view's fallthrough reads succeed. -/
def h2FullBlock (h q c : RichText) (lang : String) : Block :=
  { type := some "heading_2", heading_2 := some ⟨h⟩, quote := some ⟨q⟩,
    code := some ⟨c, lang⟩ }

/-- Fixture: a heading_3 block as the API returns it. -/
def h3Block (l : RichText) : Block :=
  { type := some "heading_3", heading_3 := some ⟨l⟩ }

/-- Fixture: a quote block as the API returns it (no code field). -/
def quoteBlock (l : RichText) : Block :=
  { type := some "quote", quote := some ⟨l⟩ }

/-- Fixture: a quote block that additionally carries a code payload. -/
def quoteFullBlock (q c : RichText) (lang : String) : Block :=
  { type := some "quote", quote := some ⟨q⟩, code := some ⟨c, lang⟩ }

/-- Fixture: a code block as the API returns it. -/
def codeBlock (l : RichText) (lang : String) : Block :=
  { type := some "code", code := some ⟨l, lang⟩ }

/-- Fixture: a block of an arbitrary (e.g. unrecognized) type tag with no
payload fields. -/
def otherBlock (t : String) : Block :=
  { type := some t }

/-- Fixture: a page with an empty properties bag. -/
def samplePage : Page :=
  { id := "p1", created_time := some "2024-01-01",
    last_edited_time := some "2024-01-02", properties := some [] }

/-- Fixture: a block-children oracle returning one paragraph block for every
id. -/
def sampleBlocksOf : String → List Block :=
  fun _ => [paraBlock ["a"]]

/-- Fixture: the posts the list view builds from `samplePage` under
`sampleBlocksOf`. -/
def samplePosts : List Post :=
  [{ id := "p1", title := none, slug := none, createdTs := some "2024-01-01",
     lastEditedTs := some "2024-01-02",
     contents := [Content.paragraph (some "a")] }]

end Blog

namespace ListView

open Blog

/-- The payload fields actually read by the branch(es) the list view's
`switch` executes for a block (fallthrough included) are all present.
For `heading_2` that is `heading_2`, `quote` and `code`; for `quote` it is
`quote` and `code`; for `code` it is `code`; for `paragraph` it is
`paragraph`; other tags (and tagless blocks) read nothing. -/
def accessOk (b : Block) : Bool :=
  match b.type with
  | none => true
  | some t =>
    if t = "paragraph" then b.paragraph.isSome
    else if t = "heading_2" then b.heading_2.isSome && b.quote.isSome && b.code.isSome
    else if t = "quote" then b.quote.isSome && b.code.isSome
    else if t = "code" then b.code.isSome
    else true

/-- Every block of the list satisfies `accessOk`. -/
def allAccessOk (bs : List Block) : Bool :=
  bs.all accessOk

end ListView

namespace PostView

open Blog

/-- On a block carrying the payload matching its tag, the single-post view's
switch body produces exactly the spec-side record (one per recognized block,
same tag), and produces one exactly when the tag is recognized. -/
theorem flattenBlock_spec (b : Block) (h : blockOk b = true) :
    flattenBlock b = Except.ok (contentSpec b).toList ∧
      (contentSpec b).isSome = isRecognized b := by
  rcases b with ⟨ty, pa, h2, h3, qu, co⟩
  cases ty with
  | none => exact ⟨rfl, rfl⟩
  | some t =>
    dsimp only [blockOk] at h
    by_cases h1 : t = "paragraph"
    · subst h1
      rcases pa with _ | p
      · simp at h
      · exact ⟨rfl, rfl⟩
    · rw [if_neg h1] at h
      by_cases hB : t = "heading_2"
      · subst hB
        rcases h2 with _ | p
        · simp at h
        · exact ⟨rfl, rfl⟩
      · rw [if_neg hB] at h
        by_cases hC : t = "heading_3"
        · subst hC
          rcases h3 with _ | p
          · simp at h
          · exact ⟨rfl, rfl⟩
        · rw [if_neg hC] at h
          by_cases hD : t = "quote"
          · subst hD
            rcases qu with _ | p
            · simp at h
            · exact ⟨rfl, rfl⟩
          · rw [if_neg hD] at h
            by_cases hE : t = "code"
            · subst hE
              rcases co with _ | p
              · simp at h
              · exact ⟨rfl, rfl⟩
            · constructor
              · simp [flattenBlock, contentSpec, h1, hB, hC, hD, hE]
              · simp [contentSpec, isRecognized, h1, hB, hC, hD, hE]

/-- On a list of well-shaped blocks, the single-post view's flattener
succeeds and returns exactly one record per recognized block, in input
order; the output length is the number of recognized blocks. -/
theorem getContents_filterMap (bs : List Block) (h : blocksOk bs = true) :
    getContents bs = Except.ok (bs.filterMap contentSpec) ∧
      (bs.filterMap contentSpec).length = (bs.filter isRecognized).length := by
  induction bs with
  | nil => exact ⟨rfl, rfl⟩
  | cons b bs ih =>
    rw [blocksOk, List.all_cons, Bool.and_eq_true] at h
    obtain ⟨hfb, hsome⟩ := flattenBlock_spec b h.1
    obtain ⟨ih1, ih2⟩ := ih h.2
    constructor
    · simp only [getContents]
      rw [hfb, ih1]
      cases hcs : contentSpec b <;> simp [List.filterMap_cons, hcs]
    · cases hcs : contentSpec b with
      | none =>
        rw [hcs] at hsome
        simp [List.filterMap_cons, List.filter_cons, hcs, ← hsome, ih2]
      | some c =>
        rw [hcs] at hsome
        simp [List.filterMap_cons, List.filter_cons, hcs, ← hsome, ih2]

end PostView

namespace ListView

open Blog

/-- If every field the executed branch(es) read is present, one iteration of
the list view's switch does not throw. -/
theorem flattenBlock_ok_of_accessOk (b : Block) (h : accessOk b = true) :
    ∃ cl, flattenBlock b = Except.ok cl := by
  rcases b with ⟨ty, pa, h2, h3, qu, co⟩
  cases ty with
  | none => exact ⟨[], rfl⟩
  | some t =>
    dsimp only [accessOk] at h
    by_cases h1 : t = "paragraph"
    · subst h1
      rcases pa with _ | p
      · simp at h
      · exact ⟨_, rfl⟩
    · rw [if_neg h1] at h
      by_cases hB : t = "heading_2"
      · subst hB
        rw [if_pos rfl] at h
        rcases h2 with _ | x
        · simp at h
        · rcases qu with _ | y
          · simp at h
          · rcases co with _ | z
            · simp at h
            · exact ⟨_, rfl⟩
      · rw [if_neg hB] at h
        by_cases hD : t = "quote"
        · subst hD
          rw [if_pos rfl] at h
          rcases qu with _ | y
          · simp at h
          · rcases co with _ | z
            · simp at h
            · exact ⟨_, rfl⟩
        · rw [if_neg hD] at h
          by_cases hE : t = "code"
          · subst hE
            rcases co with _ | z
            · simp at h
            · exact ⟨_, rfl⟩
          · refine ⟨[], ?_⟩
            simp [flattenBlock, h1, hB, hD, hE]

/-- If every block of the list satisfies `accessOk`, the list view's
flattener does not throw. -/
theorem getPostContents_ok_of_allAccessOk (bs : List Block)
    (h : allAccessOk bs = true) :
    ∃ cl, getPostContents bs = Except.ok cl := by
  induction bs with
  | nil => exact ⟨[], rfl⟩
  | cons b bs ih =>
    rw [allAccessOk, List.all_cons, Bool.and_eq_true] at h
    obtain ⟨c, hc⟩ := flattenBlock_ok_of_accessOk b h.1
    obtain ⟨cl, hcl⟩ := ih h.2
    refine ⟨c ++ cl, ?_⟩
    simp only [getPostContents]
    rw [hc, hcl]

end ListView

namespace ListView

open Blog

/-- The parallel fan-out pairs posts and content lists positionally: when it
succeeds, the i-th content list is exactly the flattening of the i-th post's
block children. -/
theorem contentsListOf_forall2 (blocksOf : String → List Block) :
    ∀ (posts : List Post) (cls : List (List Content)),
      contentsListOf blocksOf posts = Except.ok cls →
      List.Forall₂ (fun p cl => getPostContents (blocksOf p.id) = Except.ok cl)
        posts cls := by
  intro posts
  induction posts with
  | nil =>
    intro cls h
    simp only [contentsListOf] at h
    injection h with h2
    subst h2
    exact List.Forall₂.nil
  | cons p ps ih =>
    intro cls h
    simp only [contentsListOf] at h
    cases hc : getPostContents (blocksOf p.id) with
    | error e =>
      rw [hc] at h
      exact Except.noConfusion h
    | ok c =>
      rw [hc] at h
      cases hrest : contentsListOf blocksOf ps with
      | error e =>
        rw [hrest] at h
        exact Except.noConfusion h
      | ok rest =>
        rw [hrest] at h
        injection h with h2
        subst h2
        exact List.Forall₂.cons hc (ih rest hrest)

end ListView

open Blog

/-- C7: an empty block-children list flattens to an empty content sequence,
in both the list view and the single-post view. -/
theorem emptyBlocksEmptyContents :
    ListView.getPostContents [] = Except.ok [] ∧
      PostView.getContents [] = Except.ok [] :=
  ⟨rfl, rfl⟩

/-- C2: in the list view's flattener the `quote` case has no terminating
`break`, so a single block of type `quote` (here one that also carries a
`code` payload, so the fallthrough reads succeed) produces more than one
`Content` entry: its own `quote` entry followed by a `code` entry. -/
theorem listViewQuoteFallthroughDuplicates :
    ListView.getPostContents [quoteFullBlock ["q"] ["c"] "javascript"] =
      Except.ok [Content.quote (some "q"),
        Content.code (some "c") "javascript"] ∧
    1 < [Content.quote (some "q"),
        Content.code (some "c" : Option String) "javascript"].length :=
  ⟨rfl, by decide⟩

/-- C1 (counterexample): the claim says every remaining block is mapped to
exactly one `Content` record.  The single recognized `heading_2` block below
is mapped by the list view's flattener to three records (fallthrough into
the `quote` and `code` pushes), refuting the claim for the list view. -/
theorem listViewNotOneRecordPerBlock :
    ListView.getPostContents [h2FullBlock ["h"] ["q"] ["c"] "python"] =
      Except.ok [Content.heading_2 (some "h"), Content.quote (some "q"),
        Content.code (some "c") "python"] ∧
    ([h2FullBlock ["h"] ["q"] ["c"] "python"].filter isRecognized).length = 1 :=
  ⟨rfl, rfl⟩

/-- C1 (amended): the single-post view's flattener satisfies the claim: on a
block list whose recognized blocks carry their payloads, the output is the
input order with unrecognized types removed and each remaining block mapped
to exactly one `Content` record (`contentSpec`); its length is the number of
recognized blocks.  The list view's flattener does not satisfy this (see the
counterexample). -/
theorem postViewFlattenerOrderSpec (bs : List Block)
    (h : blocksOk bs = true) :
    PostView.getContents bs = Except.ok (bs.filterMap contentSpec) ∧
      (bs.filterMap contentSpec).length = (bs.filter isRecognized).length :=
  PostView.getContents_filterMap bs h

/-- Witness for the amended C1 theorem at a concrete three-block list. -/
theorem postViewFlattenerOrderSpecWitness :
    PostView.getContents [paraBlock ["a"], otherBlock "toggle",
        codeBlock ["x"] "py"] =
      Except.ok ([paraBlock ["a"], otherBlock "toggle",
        codeBlock ["x"] "py"].filterMap contentSpec) ∧
    ([paraBlock ["a"], otherBlock "toggle",
        codeBlock ["x"] "py"].filterMap contentSpec).length =
      ([paraBlock ["a"], otherBlock "toggle",
        codeBlock ["x"] "py"].filter isRecognized).length :=
  postViewFlattenerOrderSpec
    [paraBlock ["a"], otherBlock "toggle", codeBlock ["x"] "py"] rfl

/-- C3 (counterexample): the claim says heading levels 2 and 3 are
recognized in both page implementations.  The list view's switch has no
`heading_3` case, so a `heading_3` block is silently dropped there, while
the single-post view maps it to a `heading_3` record. -/
theorem listViewDropsHeading3 :
    ListView.getPostContents [h3Block ["x"]] = Except.ok [] ∧
      PostView.getContents [h3Block ["x"]] =
        Except.ok [Content.heading_3 (some "x")] :=
  ⟨rfl, rfl⟩

/-- C9 (counterexample): the claim says the list view's flattener never
throws.  On a `heading_2` block shaped as the API returns it (no `quote`
field), the fallthrough executes `block.quote.rich_text` without a guard and
throws a TypeError. -/
theorem listViewHeading2Throws :
    ListView.getPostContents [h2Block ["h"]] =
      Except.error "TypeError: quote is undefined" :=
  rfl

/-- C4: title extraction returns the first rich-text segment's plain text of
a present `Name` property of type `title` (and `none` when its segment list
is empty, since `l.head?` is `none` there); it returns `none` when the
property is absent or has a different type, and never throws (it is total).
The single-post view's inline extraction agrees: the post it builds carries
exactly this value. -/
theorem getTitleSpec (props : PropBag) :
    (∀ l, props.lookup "Name" = some (Property.title l) →
      ListView.getTitle props = l.head?) ∧
    (props.lookup "Name" = none → ListView.getTitle props = none) ∧
    (∀ p, props.lookup "Name" = some p → (∀ l, p ≠ Property.title l) →
      ListView.getTitle props = none) ∧
    (∀ (page : Page) rest blocks post, page.properties = some props →
      PostView.getStaticProps (page :: rest) blocks = Except.ok (some post) →
      post.title = ListView.getTitle props) := by
  refine ⟨?_, ?_, ?_, ?_⟩
  · intro l hl
    simp [ListView.getTitle, hl, firstText]
  · intro hl
    simp [ListView.getTitle, hl]
  · intro p hl hp
    cases p with
    | title l => exact absurd rfl (hp l)
    | rich_text l => simp [ListView.getTitle, hl]
    | other => simp [ListView.getTitle, hl]
  · intro page rest blocks post hprops h
    simp only [PostView.getStaticProps] at h
    rw [hprops] at h
    cases hc : PostView.getContents blocks with
    | error e =>
      rw [hc] at h
      exact Except.noConfusion h
    | ok contents =>
      rw [hc] at h
      injection h with h2
      injection h2 with h3
      rw [← h3]
      rfl

/-- Witness for C4 at a concrete properties bag holding a one-segment
`Name` title property. -/
theorem getTitleSpecWitness :
    ListView.getTitle [("Name", Property.title ["hello"])] = some "hello" :=
  (getTitleSpec [("Name", Property.title ["hello"])]).1 ["hello"] rfl

/-- C5: a block of type `code` whose `code` payload is present flattens, in
both views, to a single `code` content record whose `language` equals the
input block's `language` field unchanged. -/
theorem codeLanguageRoundTrip (b : Block) (c : CodePayload)
    (ht : b.type = some "code") (hc : b.code = some c) :
    ListView.getPostContents [b] =
      Except.ok [Content.code (firstText c.rich_text) c.language] ∧
    PostView.getContents [b] =
      Except.ok [Content.code (firstText c.rich_text) c.language] := by
  constructor <;>
    simp [ListView.getPostContents, PostView.getContents,
      ListView.flattenBlock, PostView.flattenBlock, ht, hc]

/-- Witness for C5 at a concrete python code block. -/
theorem codeLanguageRoundTripWitness :
    ListView.getPostContents [codeBlock ["x"] "python"] =
      Except.ok [Content.code (some "x") "python"] ∧
    PostView.getContents [codeBlock ["x"] "python"] =
      Except.ok [Content.code (some "x") "python"] :=
  codeLanguageRoundTrip (codeBlock ["x"] "python") ⟨["x"], "python"⟩ rfl rfl

/-- C6: when the `Name` property is absent, mistyped or empty and the `Slug`
property is absent, mistyped or empty, the extractors return `none` without
signalling any error, and the single-post view still builds its post (given
well-shaped blocks) with `title = none` and `slug = none`: the shape
mismatches are coerced to null rather than reported. -/
theorem missingTitleSlugNullCoercion (props : PropBag) (page : Page)
    (rest : List Page) (blocks : List Block)
    (hName : ∀ l, props.lookup "Name" = some (Property.title l) → l = [])
    (hSlug : ∀ l, props.lookup "Slug" = some (Property.rich_text l) → l = [])
    (hprops : page.properties = some props)
    (hblocks : blocksOk blocks = true) :
    ListView.getTitle props = none ∧ ListView.getSlug props = none ∧
    ∃ post, PostView.getStaticProps (page :: rest) blocks =
        Except.ok (some post) ∧ post.title = none ∧ post.slug = none := by
  have ht : ListView.getTitle props = none := by
    unfold ListView.getTitle
    cases hl : props.lookup "Name" with
    | none => rfl
    | some p =>
      cases p with
      | title l =>
        have hl0 := hName l hl
        subst hl0
        rfl
      | rich_text l => rfl
      | other => rfl
  have hs : ListView.getSlug props = none := by
    unfold ListView.getSlug
    cases hl : props.lookup "Slug" with
    | none => rfl
    | some p =>
      cases p with
      | title l => rfl
      | rich_text l =>
        have hl0 := hSlug l hl
        subst hl0
        rfl
      | other => rfl
  obtain ⟨hcontents, -⟩ := PostView.getContents_filterMap blocks hblocks
  refine ⟨ht, hs, ⟨{ id := page.id, title := none, slug := none,
                     createdTs := page.created_time,
                     lastEditedTs := page.last_edited_time,
                     contents := blocks.filterMap contentSpec }, ?_, rfl, rfl⟩⟩
  have ht' : PostView.titleOf props = none := ht
  have hs' : PostView.slugOf props = none := hs
  simp only [PostView.getStaticProps]
  rw [hprops, hcontents]
  dsimp only
  rw [ht', hs']

/-- Witness for C6: a bag with a mistyped `Name` (type `rich_text`) and no
`Slug` at all, on a page with one paragraph block. -/
theorem missingTitleSlugNullCoercionWitness :
    ListView.getTitle [("Name", Property.rich_text ["x"])] = none ∧
    ListView.getSlug [("Name", Property.rich_text ["x"])] = none ∧
    ∃ post, PostView.getStaticProps
        [{ id := "p9", properties := some [("Name", Property.rich_text ["x"])] }]
        [paraBlock ["a"]] = Except.ok (some post) ∧
      post.title = none ∧ post.slug = none :=
  missingTitleSlugNullCoercion [("Name", Property.rich_text ["x"])]
    { id := "p9", properties := some [("Name", Property.rich_text ["x"])] }
    [] [paraBlock ["a"]]
    (fun l hl => by injection hl with hl2; exact Property.noConfusion hl2)
    (fun l hl => by exact Option.noConfusion hl)
    rfl rfl

/-- C8: in the single-post view, an empty database result yields
`post = null` regardless of the block-children response, and a first result
lacking a `properties` bag yields a post with null title, slug and
timestamps and empty contents, again regardless of the blocks. -/
theorem postViewEmptyAndPartialResults :
    (∀ blocks, PostView.getStaticProps [] blocks = Except.ok none) ∧
    (∀ (page : Page) rest blocks, page.properties = none →
      PostView.getStaticProps (page :: rest) blocks =
        Except.ok (some { id := page.id, title := none, slug := none,
                          createdTs := none, lastEditedTs := none,
                          contents := [] })) := by
  constructor
  · intro blocks
    rfl
  · intro page rest blocks hp
    simp only [PostView.getStaticProps]
    rw [hp]

/-- Witness for C8 at an empty result list and at a properties-less page. -/
theorem postViewEmptyAndPartialResultsWitness :
    PostView.getStaticProps [] [paraBlock ["a"]] = Except.ok none ∧
    PostView.getStaticProps [{ id := "p0" }] [paraBlock ["a"]] =
      Except.ok (some { id := "p0", title := none, slug := none,
                        createdTs := none, lastEditedTs := none,
                        contents := [] }) :=
  ⟨postViewEmptyAndPartialResults.1 [paraBlock ["a"]],
   postViewEmptyAndPartialResults.2 { id := "p0" } [] [paraBlock ["a"]] rfl⟩

/-- C3 (amended): in the single-post view every recognized type tag
(paragraph, heading_2, heading_3, quote, code) maps to the `Content` variant
with the same tag and every other tag is dropped.  In the list view only
paragraph, heading_2, quote and code are matched: paragraph and code map to
the same-tag variant, `heading_3` is dropped like an unrecognized tag, and
the heading_2 and quote branches fall through, pushing their same-tag
variant followed by extra variants. -/
theorem flattenersRecognizedTags :
    (∀ l, PostView.getContents [paraBlock l] =
        Except.ok [Content.paragraph l.head?]) ∧
    (∀ l, PostView.getContents [h2Block l] =
        Except.ok [Content.heading_2 l.head?]) ∧
    (∀ l, PostView.getContents [h3Block l] =
        Except.ok [Content.heading_3 l.head?]) ∧
    (∀ l, PostView.getContents [quoteBlock l] =
        Except.ok [Content.quote l.head?]) ∧
    (∀ l lang, PostView.getContents [codeBlock l lang] =
        Except.ok [Content.code l.head? lang]) ∧
    (∀ b, isRecognized b = false → PostView.getContents [b] = Except.ok []) ∧
    (∀ l, ListView.getPostContents [paraBlock l] =
        Except.ok [Content.paragraph l.head?]) ∧
    (∀ l lang, ListView.getPostContents [codeBlock l lang] =
        Except.ok [Content.code l.head? lang]) ∧
    (∀ l, ListView.getPostContents [h3Block l] = Except.ok []) ∧
    (∀ b, isRecognized b = false →
      ListView.getPostContents [b] = Except.ok []) ∧
    (∀ h q c lang, ListView.getPostContents [h2FullBlock h q c lang] =
        Except.ok [Content.heading_2 h.head?, Content.quote q.head?,
          Content.code c.head? lang]) ∧
    (∀ q c lang, ListView.getPostContents [quoteFullBlock q c lang] =
        Except.ok [Content.quote q.head?, Content.code c.head? lang]) := by
  refine ⟨fun l => rfl, fun l => rfl, fun l => rfl, fun l => rfl,
    fun l lang => rfl, ?_, fun l => rfl, fun l lang => rfl, fun l => rfl,
    ?_, fun h q c lang => rfl, fun q c lang => rfl⟩
  · intro b hb
    rcases b with ⟨ty, pa, h2, h3, qu, co⟩
    cases ty with
    | none => rfl
    | some t =>
      dsimp only [isRecognized] at hb
      simp only [Bool.or_eq_false_iff, decide_eq_false_iff_not] at hb
      obtain ⟨⟨⟨⟨h1, hB⟩, hC⟩, hD⟩, hE⟩ := hb
      have hfb : PostView.flattenBlock ⟨some t, pa, h2, h3, qu, co⟩ =
          Except.ok [] := by
        simp [PostView.flattenBlock, h1, hB, hC, hD, hE]
      simp [PostView.getContents, hfb]
  · intro b hb
    rcases b with ⟨ty, pa, h2, h3, qu, co⟩
    cases ty with
    | none => rfl
    | some t =>
      dsimp only [isRecognized] at hb
      simp only [Bool.or_eq_false_iff, decide_eq_false_iff_not] at hb
      obtain ⟨⟨⟨⟨h1, hB⟩, hC⟩, hD⟩, hE⟩ := hb
      have hfb : ListView.flattenBlock ⟨some t, pa, h2, h3, qu, co⟩ =
          Except.ok [] := by
        simp [ListView.flattenBlock, h1, hB, hD, hE]
      simp [ListView.getPostContents, hfb]

/-- Witness for the amended C3 theorem: a `heading_3` block is kept (with
its own tag) by the single-post view and an unrecognized `toggle` block is
dropped by both views. -/
theorem flattenersRecognizedTagsWitness :
    PostView.getContents [h3Block ["x"]] =
      Except.ok [Content.heading_3 (some "x")] ∧
    PostView.getContents [otherBlock "toggle"] = Except.ok [] ∧
    ListView.getPostContents [otherBlock "toggle"] = Except.ok [] :=
  ⟨flattenersRecognizedTags.2.2.1 ["x"],
   flattenersRecognizedTags.2.2.2.2.2.1 (otherBlock "toggle") rfl,
   flattenersRecognizedTags.2.2.2.2.2.2.2.2.2.1 (otherBlock "toggle") rfl⟩

/-- C9 (amended): the list view's flattener terminates without throwing on
every block list in which each block carries all the payload fields the
executed branch(es) — fallthrough included — actually read; on such lists it
returns a content list.  (The counterexample shows it does throw when a
fallthrough-read field is absent.) -/
theorem listViewNoThrowWhenFieldsPresent (bs : List Block)
    (h : ListView.allAccessOk bs = true) :
    ∃ cl, ListView.getPostContents bs = Except.ok cl :=
  ListView.getPostContents_ok_of_allAccessOk bs h

/-- Witness for the amended C9 theorem on a list exercising every branch
with all read fields present. -/
theorem listViewNoThrowWhenFieldsPresentWitness :
    ∃ cl, ListView.getPostContents [paraBlock ["a"],
        h2FullBlock ["h"] ["q"] ["c"] "py", quoteFullBlock ["q"] ["c"] "js",
        codeBlock ["x"] "rb", otherBlock "toggle"] = Except.ok cl :=
  listViewNoThrowWhenFieldsPresent [paraBlock ["a"],
    h2FullBlock ["h"] ["q"] ["c"] "py", quoteFullBlock ["q"] ["c"] "js",
    codeBlock ["x"] "rb", otherBlock "toggle"] rfl

/-- C10: in the list view's `getStaticProps`, when the parallel contents
fetch succeeds, the post at every position `i` of the returned list receives
exactly the content sequence obtained by flattening that same post's block
children (positional pairing of `Promise.all`), and every field of the post
other than `contents` is unchanged from the post `getPosts` built. -/
theorem listViewContentsPairingAndFrame (blocksOf : String → List Block)
    (results : List Page) (posts' : List Post)
    (h : ListView.getStaticProps blocksOf results = Except.ok posts')
    (i : Nat) (hi : i < posts'.length) :
    ∃ hp : i < (ListView.getPosts results).length,
      ListView.getPostContents
          (blocksOf (((ListView.getPosts results).get ⟨i, hp⟩).id)) =
        Except.ok ((posts'.get ⟨i, hi⟩).contents) ∧
      (posts'.get ⟨i, hi⟩).id = ((ListView.getPosts results).get ⟨i, hp⟩).id ∧
      (posts'.get ⟨i, hi⟩).title =
        ((ListView.getPosts results).get ⟨i, hp⟩).title ∧
      (posts'.get ⟨i, hi⟩).slug =
        ((ListView.getPosts results).get ⟨i, hp⟩).slug ∧
      (posts'.get ⟨i, hi⟩).createdTs =
        ((ListView.getPosts results).get ⟨i, hp⟩).createdTs ∧
      (posts'.get ⟨i, hi⟩).lastEditedTs =
        ((ListView.getPosts results).get ⟨i, hp⟩).lastEditedTs := by
  unfold ListView.getStaticProps at h
  cases hcl : ListView.contentsListOf blocksOf (ListView.getPosts results) with
  | error e =>
    rw [hcl] at h
    exact Except.noConfusion h
  | ok cls =>
    rw [hcl] at h
    injection h with h2
    subst h2
    have hf := ListView.contentsListOf_forall2 blocksOf
      (ListView.getPosts results) cls hcl
    have hlen := hf.length_eq
    have hp : i < (ListView.getPosts results).length := by
      simp only [ListView.updateContents, List.length_zipWith] at hi
      omega
    have hic : i < cls.length := hlen ▸ hp
    refine ⟨hp, ?_⟩
    have hget : (ListView.updateContents (ListView.getPosts results) cls).get
        ⟨i, hi⟩ =
        { (ListView.getPosts results).get ⟨i, hp⟩ with
          contents := cls.get ⟨i, hic⟩ } := by
      simp [ListView.updateContents, List.get_eq_getElem, List.getElem_zipWith]
    rw [hget]
    exact ⟨hf.get hp hic, rfl, rfl, rfl, rfl, rfl⟩

/-- Witness for C10 at a one-page query result and a one-paragraph block
oracle. -/
theorem listViewContentsPairingAndFrameWitness :
    ∃ hp : 0 < (ListView.getPosts [samplePage]).length,
      ListView.getPostContents
          (sampleBlocksOf (((ListView.getPosts [samplePage]).get ⟨0, hp⟩).id)) =
        Except.ok ((samplePosts.get ⟨0, Nat.one_pos⟩).contents) ∧
      (samplePosts.get ⟨0, Nat.one_pos⟩).id =
        ((ListView.getPosts [samplePage]).get ⟨0, hp⟩).id ∧
      (samplePosts.get ⟨0, Nat.one_pos⟩).title =
        ((ListView.getPosts [samplePage]).get ⟨0, hp⟩).title ∧
      (samplePosts.get ⟨0, Nat.one_pos⟩).slug =
        ((ListView.getPosts [samplePage]).get ⟨0, hp⟩).slug ∧
      (samplePosts.get ⟨0, Nat.one_pos⟩).createdTs =
        ((ListView.getPosts [samplePage]).get ⟨0, hp⟩).createdTs ∧
      (samplePosts.get ⟨0, Nat.one_pos⟩).lastEditedTs =
        ((ListView.getPosts [samplePage]).get ⟨0, hp⟩).lastEditedTs :=
  listViewContentsPairingAndFrame sampleBlocksOf [samplePage] samplePosts
    rfl 0 Nat.one_pos
